import Mathlib

/-!
Verification development for the `dns-server-rust` repository: a shallow
embedding of the DNS message codec (`src/message.rs`), the question parser and
request handler (`src/conn.rs`), and the constants (`src/constants.rs`),
together with theorems about the claims of the specification.

Bytes are modelled as `Nat` (machine truncation written explicitly with `%`),
byte buffers as `List Nat`, fallible operations as `Option`/`Outcome`.
Rust panics (out-of-bounds indexing, `expect`) are modelled by the distinct
`Outcome.panic` result.
-/

namespace DnsServer

/-! ## Constants (`src/constants.rs`) -/

/-- Length of buffer for handling connections, 512 bytes (`1 << 9`). -/
def BUFFER_LEN : Nat := 512

/-- Time-to-live. -/
def TTL : Nat := 60

/-- An arbitrary IPv4 address (`[192, 168, 1, 1]`). -/
def ARBITRARY_IPV4 : List Nat := [192, 168, 1, 1]

/-! ## Data model (`src/message.rs`)

The deku-derived enums.  A variant carrying an explicit `#[deku(id = ...)]`
reads/writes that id; the id-less `Reserved` variants are deku default
variants: on read they catch every unmatched id, and their write behaviour is
not modelled (the `wire` functions below return `none` for them, and no
theorem of this file depends on serialising a `Reserved` variant). -/

/-- QR bit: query (0) or response (1). -/
inductive Qr where
  | Query
  | Response
deriving DecidableEq

/-- OPCODE, a four-bit field (`Query = 0`, `InverseQuery = 1`, `Status = 2`,
plus the reserved catch-all). -/
inductive OpCode where
  | Query
  | InverseQuery
  | Status
  | Reserved
deriving DecidableEq

/-- RCODE, a four-bit field (ids 0 to 5 plus the reserved catch-all). -/
inductive ResponseCode where
  | NoError
  | FormatError
  | ServerFailure
  | NameError
  | NotImplemented
  | Refused
  | Reserved
deriving DecidableEq

/-- QTYPE (`A = 1`, `NS = 2`, `MX = 15`). -/
inductive Qtype where
  | A
  | NS
  | MX
deriving DecidableEq

/-- QCLASS (`IN = 1`). -/
inductive Qclass where
  | IN
deriving DecidableEq

/-- Resource-record TYPE (`A = 1`, `NS = 2`, `MX = 15`); named `Type` in the
source, which is not a legal Lean identifier. -/
inductive Type_ where
  | A
  | NS
  | MX
deriving DecidableEq

/-- Resource-record CLASS (`IN = 1`); named `Class` in the source. -/
inductive Class_ where
  | IN
deriving DecidableEq

/-- Wire value of the QR bit. -/
def Qr.wire : Qr → Nat
  | .Query => 0
  | .Response => 1

/-- Read the QR bit (1-bit field, both patterns covered). -/
def Qr.read (n : Nat) : Qr :=
  if n = 1 then .Response else .Query

/-- Wire id of an OPCODE variant; `none` for the id-less default variant. -/
def OpCode.wire : OpCode → Option Nat
  | .Query => some 0
  | .InverseQuery => some 1
  | .Status => some 2
  | .Reserved => none

/-- Read a 4-bit OPCODE id; unmatched ids fall to the default variant. -/
def OpCode.read (n : Nat) : OpCode :=
  if n = 0 then .Query
  else if n = 1 then .InverseQuery
  else if n = 2 then .Status
  else .Reserved

/-- Wire id of an RCODE variant; `none` for the id-less default variant. -/
def ResponseCode.wire : ResponseCode → Option Nat
  | .NoError => some 0
  | .FormatError => some 1
  | .ServerFailure => some 2
  | .NameError => some 3
  | .NotImplemented => some 4
  | .Refused => some 5
  | .Reserved => none

/-- Read a 4-bit RCODE id; unmatched ids fall to the default variant. -/
def ResponseCode.read (n : Nat) : ResponseCode :=
  if n = 0 then .NoError
  else if n = 1 then .FormatError
  else if n = 2 then .ServerFailure
  else if n = 3 then .NameError
  else if n = 4 then .NotImplemented
  else if n = 5 then .Refused
  else .Reserved

/-- Wire value of a QTYPE variant. -/
def Qtype.wire : Qtype → Nat
  | .A => 1
  | .NS => 2
  | .MX => 15

/-- Read a 16-bit QTYPE id; there is no default variant, unmatched ids fail. -/
def Qtype.read (n : Nat) : Option Qtype :=
  if n = 1 then some .A
  else if n = 2 then some .NS
  else if n = 15 then some .MX
  else none

/-- `TryFrom<u16> for Qtype` (same table as the deku ids). -/
def Qtype.tryFrom (n : Nat) : Option Qtype :=
  if n = 1 then some .A
  else if n = 2 then some .NS
  else if n = 15 then some .MX
  else none

/-- Wire value of a QCLASS variant. -/
def Qclass.wire : Qclass → Nat
  | .IN => 1

/-- Read a 16-bit QCLASS id; unmatched ids fail. -/
def Qclass.read (n : Nat) : Option Qclass :=
  if n = 1 then some .IN else none

/-- `TryFrom<u16> for Qclass`. -/
def Qclass.tryFrom (n : Nat) : Option Qclass :=
  if n = 1 then some .IN else none

/-- Wire value of a TYPE variant. -/
def Type_.wire : Type_ → Nat
  | .A => 1
  | .NS => 2
  | .MX => 15

/-- Read a 16-bit TYPE id. -/
def Type_.read (n : Nat) : Option Type_ :=
  if n = 1 then some .A
  else if n = 2 then some .NS
  else if n = 15 then some .MX
  else none

/-- Wire value of a CLASS variant. -/
def Class_.wire : Class_ → Nat
  | .IN => 1

/-- Read a 16-bit CLASS id. -/
def Class_.read (n : Nat) : Option Class_ :=
  if n = 1 then some .IN else none

/-- DNS message header (12 bytes on the wire, RFC 1035 section 4.1.1).
The `u16`/bit fields of the source are `Nat` here. -/
structure Header where
  id : Nat
  qr : Qr
  opcode : OpCode
  aa : Nat
  tc : Nat
  rd : Nat
  ra : Nat
  z : Nat
  rcode : ResponseCode
  qdcount : Nat
  ancount : Nat
  nscount : Nat
  arcount : Nat
deriving DecidableEq

/-- DNS question: a raw length-prefixed, zero-terminated name plus QTYPE and
QCLASS. -/
structure Question where
  qname : List Nat
  qtype : Qtype
  qclass : Qclass
deriving DecidableEq

/-- `Question::new`. -/
def Question.new (qname : List Nat) (qtype : Qtype) (qclass : Qclass) : Question :=
  { qname := qname, qtype := qtype, qclass := qclass }

/-- DNS resource record. -/
structure ResourceRecord where
  name : List Nat
  type_ : Type_
  class_ : Class_
  ttl : Nat
  rdlength : Nat
  rdata : List Nat
deriving DecidableEq

/-- `ResourceRecord::new`: `rdlength` is `rdata.len() as u16`, i.e. the length
truncated to 16 bits. -/
def ResourceRecord.new (name : List Nat) (type_ : Type_) (class_ : Class_)
    (ttl : Nat) (rdata : List Nat) : ResourceRecord :=
  { name := name, type_ := type_, class_ := class_, ttl := ttl,
    rdlength := rdata.length % 65536, rdata := rdata }

/-- DNS message: header, question section, answer section. -/
structure Message where
  header : Header
  question : List Question
  answer : List ResourceRecord
deriving DecidableEq

/-! ## Wire codec primitives (deku reader/writer semantics) -/

/-- Read one byte. -/
def readU8 : List Nat → Option (Nat × List Nat)
  | [] => none
  | b :: rest => some (b, rest)

/-- Read a big-endian `u16`. -/
def readU16be : List Nat → Option (Nat × List Nat)
  | b0 :: b1 :: rest => some (256 * b0 + b1, rest)
  | _ => none

/-- Read a big-endian `u32`. -/
def readU32be : List Nat → Option (Nat × List Nat)
  | b0 :: b1 :: b2 :: b3 :: rest =>
      some (16777216 * b0 + 65536 * b1 + 256 * b2 + b3, rest)
  | _ => none

/-- Deku `until = "|v| *v == 0"` on a `Vec<u8>`: read bytes up to and
including the first zero byte; fail if the input ends first. -/
def readUntilZero : List Nat → Option (List Nat × List Nat)
  | [] => none
  | b :: rest =>
    if b = 0 then some ([b], rest)
    else
      match readUntilZero rest with
      | none => none
      | some (v, r) => some (b :: v, r)

/-- Deku `count = n` on a `Vec<u8>`: read exactly `n` bytes. -/
def readExact : Nat → List Nat → Option (List Nat × List Nat)
  | 0, input => some ([], input)
  | _ + 1, [] => none
  | n + 1, b :: rest =>
    match readExact n rest with
    | none => none
    | some (v, r) => some (b :: v, r)

/-- Deku `count = n` on a `Vec<T>`: run the element reader exactly `n`
times. -/
def readCount {α : Type} (f : List Nat → Option (α × List Nat)) :
    Nat → List Nat → Option (List α × List Nat)
  | 0, input => some ([], input)
  | n + 1, input =>
    match f input with
    | none => none
    | some (a, r) =>
      match readCount f n r with
      | none => none
      | some (as_, r2) => some (a :: as_, r2)

/-- Write a big-endian `u16`. -/
def writeU16be (n : Nat) : List Nat := [n / 256, n % 256]

/-- Write a big-endian `u32`. -/
def writeU32be (n : Nat) : List Nat :=
  [n / 16777216, n / 65536 % 256, n / 256 % 256, n % 256]

/-- Concatenate a list of byte strings. -/
def concatAll : List (List Nat) → List Nat
  | [] => []
  | l :: ls => l ++ concatAll ls

/-! ## Header codec (`Header` deku derive) -/

/-- `Header::from_bytes`: 12 bytes; byte 2 packs QR(1) OPCODE(4) AA(1) TC(1)
RD(1), byte 3 packs RA(1) Z(3) RCODE(4), most significant bit first. -/
def Header.from_bytes (input : List Nat) : Option (Header × List Nat) :=
  match readU16be input with
  | none => none
  | some (id, r0) =>
    match readU8 r0 with
    | none => none
    | some (b2, r1) =>
      match readU8 r1 with
      | none => none
      | some (b3, r2) =>
        match readU16be r2 with
        | none => none
        | some (qd, r3) =>
          match readU16be r3 with
          | none => none
          | some (an, r4) =>
            match readU16be r4 with
            | none => none
            | some (ns, r5) =>
              match readU16be r5 with
              | none => none
              | some (ar, r6) =>
                some ({ id := id,
                        qr := Qr.read (b2 / 128 % 2),
                        opcode := OpCode.read (b2 / 8 % 16),
                        aa := b2 / 4 % 2,
                        tc := b2 / 2 % 2,
                        rd := b2 % 2,
                        ra := b3 / 128 % 2,
                        z := b3 / 16 % 8,
                        rcode := ResponseCode.read (b3 % 16),
                        qdcount := qd,
                        ancount := an,
                        nscount := ns,
                        arcount := ar }, r6)

/-- `Header` deku write; `none` when the opcode or rcode is the id-less
default variant (whose write behaviour is not modelled). -/
def Header.to_bytes (h : Header) : Option (List Nat) :=
  match h.opcode.wire, h.rcode.wire with
  | some op, some rc =>
      some (writeU16be h.id ++
            [h.qr.wire * 128 + op * 8 + h.aa * 4 + h.tc * 2 + h.rd,
             h.ra * 128 + h.z * 16 + rc] ++
            writeU16be h.qdcount ++ writeU16be h.ancount ++
            writeU16be h.nscount ++ writeU16be h.arcount)
  | _, _ => none

/-! ## Question and resource-record codec -/

/-- `Question::from_bytes`: name until the zero byte, then QTYPE and QCLASS
as big-endian `u16` enum ids. -/
def Question.from_bytes (input : List Nat) : Option (Question × List Nat) :=
  match readUntilZero input with
  | none => none
  | some (qname, r0) =>
    match readU16be r0 with
    | none => none
    | some (t, r1) =>
      match Qtype.read t with
      | none => none
      | some qtype =>
        match readU16be r1 with
        | none => none
        | some (c, r2) =>
          match Qclass.read c with
          | none => none
          | some qclass => some ({ qname := qname, qtype := qtype, qclass := qclass }, r2)

/-- `Question` deku write. -/
def Question.to_bytes (q : Question) : List Nat :=
  q.qname ++ writeU16be q.qtype.wire ++ writeU16be q.qclass.wire

/-- `ResourceRecord::from_bytes`: name until the zero byte, TYPE, CLASS,
TTL (u32), RDLENGTH (u16), then RDLENGTH bytes of RDATA. -/
def ResourceRecord.from_bytes (input : List Nat) :
    Option (ResourceRecord × List Nat) :=
  match readUntilZero input with
  | none => none
  | some (name, r0) =>
    match readU16be r0 with
    | none => none
    | some (t, r1) =>
      match Type_.read t with
      | none => none
      | some type_ =>
        match readU16be r1 with
        | none => none
        | some (c, r2) =>
          match Class_.read c with
          | none => none
          | some class_ =>
            match readU32be r2 with
            | none => none
            | some (ttl, r3) =>
              match readU16be r3 with
              | none => none
              | some (rdlength, r4) =>
                match readExact rdlength r4 with
                | none => none
                | some (rdata, r5) =>
                  some ({ name := name, type_ := type_, class_ := class_,
                          ttl := ttl, rdlength := rdlength, rdata := rdata }, r5)

/-- `ResourceRecord` deku write. -/
def ResourceRecord.to_bytes (rr : ResourceRecord) : List Nat :=
  rr.name ++ writeU16be rr.type_.wire ++ writeU16be rr.class_.wire ++
  writeU32be rr.ttl ++ writeU16be rr.rdlength ++ rr.rdata

/-! ## Message codec (`Message` deku derive) -/

/-- `Message::from_bytes`: the header, then `qdcount` questions, then
`ancount` resource records. -/
def Message.from_bytes (input : List Nat) : Option (Message × List Nat) :=
  match Header.from_bytes input with
  | none => none
  | some (header, r0) =>
    match readCount Question.from_bytes header.qdcount r0 with
    | none => none
    | some (qs, r1) =>
      match readCount ResourceRecord.from_bytes header.ancount r1 with
      | none => none
      | some (ans, r2) => some ({ header := header, question := qs, answer := ans }, r2)

/-- `Message` deku write: the header followed by every question and every
answer (the write side ignores the count fields). -/
def Message.to_bytes (m : Message) : Option (List Nat) :=
  match m.header.to_bytes with
  | none => none
  | some hb =>
      some (hb ++ concatAll (m.question.map Question.to_bytes) ++
            concatAll (m.answer.map ResourceRecord.to_bytes))

/-- `Message::to_slice` into the fixed `BUFFER_LEN` buffer: the serialised
bytes, failing when they do not fit. -/
def Message.to_slice (m : Message) : Option (List Nat) :=
  match m.to_bytes with
  | none => none
  | some bs => if bs.length ≤ BUFFER_LEN then some bs else none

/-! ## Errors (`src/errors.rs`) and outcomes

`Outcome` separates the three ways a Rust request handler can finish: a
normal return, an `Err(ConnectionError)` return, and a panic (out-of-bounds
indexing or a failed `expect`), which in the source aborts the process. -/

/-- `ConnectionError` of `src/errors.rs` (io payloads and the deku error
payload are dropped; only the variant matters). -/
inductive ConnectionError where
  | RecvError
  | SendError
  | ZeroByte
  | DekuError
  | Slice
  | QtypeError (v : Nat)
  | QclassError (v : Nat)
deriving DecidableEq

/-- Result of running a piece of the handler: normal value, error return, or
panic. -/
inductive Outcome (α : Type) where
  | ok : α → Outcome α
  | err : ConnectionError → Outcome α
  | panic : Outcome α
deriving DecidableEq

/-! ## Question parsing (`src/conn.rs`, `parse_question`) -/

/-- The byte scan of the compression fallback path (`for b in rest` loop of
`parse_question`).  Arguments mirror the loop state: remaining input, the
`qname` accumulator, `bi`, and `offset_hi`.  `offset_hi` starts at 0 and the
loop only ever applies `offset_hi &= 0x3f` at the break -- it is never
assigned from the pointer byte, so it stays 0.  Returns `none` when a zero
byte is hit (the `ZeroByte` error), otherwise the accumulated label bytes,
the final `bi`, and the final `offset_hi` (the loop may also run off the end
of `rest` without a break). -/
def pointerScan : List Nat → List Nat → Nat → Nat → Option (List Nat × Nat × Nat)
  | [], acc, bi, oh => some (acc, bi, oh)
  | b :: bs, acc, bi, oh =>
    if b = 0 then none
    else if b < 192 then pointerScan bs (acc ++ [b]) (bi + 1) oh
    else some (acc, bi + 1, Nat.land oh 63)

/-- The compression fallback arm of `parse_question` (the `Err(e)` match arm):
scan for the pointer byte, read `offset_lo = rest[bi]`, jump to
`u16::from_be_bytes([offset_hi, offset_lo])` bytes into the full message
buffer, parse the question found there and append its name, then read QTYPE
and QCLASS from `rest` and convert them with `try_into`.  Every raw index
into `rest` panics when out of bounds, exactly as slice indexing does. -/
def parse_fallback (buf rest : List Nat) : Outcome (Question × List Nat) :=
  match pointerScan rest [] 0 0 with
  | none => .err .ZeroByte
  | some (qname0, bi, offset_hi) =>
    match rest.get? bi with
    | none => .panic
    | some offset_lo =>
      let jump := 256 * offset_hi + offset_lo
      match Question.from_bytes (buf.drop jump) with
      | none => .err .DekuError
      | some (qq, _) =>
        let qname := qname0 ++ qq.qname
        match rest.get? (bi + 1), rest.get? (bi + 2) with
        | some t0, some t1 =>
          let qtype := 256 * t0 + t1
          match rest.get? (bi + 3), rest.get? (bi + 4) with
          | some c0, some c1 =>
            let qclass := 256 * c0 + c1
            let r := rest.drop (bi + 5)
            match Qtype.tryFrom qtype with
            | none => .err (.QtypeError qtype)
            | some qt =>
              match Qclass.tryFrom qclass with
              | none => .err (.QclassError qclass)
              | some qc => .ok (Question.new qname qt qc, r)
          | _, _ => .panic
        | _, _ => .panic

/-- The `for _qi in 1..qheader.qdcount` loop of `parse_question`: `n`
iterations remain; each one parses an uncompressed question or falls back to
`parse_fallback`, appending to the accumulated question list. -/
def parseLoop (buf : List Nat) : Nat → List Nat → List Question → Outcome (List Question)
  | 0, _, acc => .ok acc
  | n + 1, rest, acc =>
    match Question.from_bytes rest with
    | some (q, r) => parseLoop buf n r (acc ++ [q])
    | none =>
      match parse_fallback buf rest with
      | .ok (q, r) => parseLoop buf n r (acc ++ [q])
      | .err e => .err e
      | .panic => .panic

/-- `parse_question`: the first question goes through `Question::from_bytes`
unconditionally (its error propagates), then the loop handles questions
2 to `qdcount`. -/
def parse_question (buf rest : List Nat) (qheader : Header) : Outcome (List Question) :=
  match Question.from_bytes rest with
  | none => .err .DekuError
  | some (q, r) => parseLoop buf (qheader.qdcount - 1) r [q]

/-! ## Request handling (`src/conn.rs`, `handle_request`) -/

/-- Response-header construction of `handle_request` (lines 44-64): the id
and RD bit are copied from the query header, QR is forced to `Response`, the
opcode is echoed, AA/TC/RA/Z are 0, RCODE is `NoError` for a standard query
and `NotImplemented` otherwise, and both `qdcount` and `ancount` are copied
from the query header's `qdcount`. -/
def buildResponseHeader (qheader : Header) : Header :=
  { id := qheader.id,
    qr := .Response,
    opcode := qheader.opcode,
    aa := 0,
    tc := 0,
    rd := qheader.rd,
    ra := 0,
    z := 0,
    rcode := if qheader.opcode = .Query then .NoError else .NotImplemented,
    qdcount := qheader.qdcount,
    ancount := qheader.qdcount,
    nscount := 0,
    arcount := 0 }

/-- What the upstream network does at one forwarding iteration: the send
fails, the receive fails, or a datagram is received into the 512-byte
`r_buf`. -/
inductive NetEvent where
  | sendFail
  | recvFail
  | reply (r_buf : List Nat)

/-- Write `vs` over `l` starting at index `i` (Rust slice assignment; the
caller checks bounds first). -/
def writeSlice (l : List Nat) (i : Nat) (vs : List Nat) : List Nat :=
  l.take i ++ vs ++ l.drop (i + vs.length)

/-- Construction of the single-question upstream query `q_buf` (lines 73-81):
copy the first `received` bytes of the request, re-copy the header bytes,
force byte 2 (the opcode byte) to 1, set `qdcount` to 1, write the question's
name at offset 12 and a fixed QTYPE=A/QCLASS=IN pair after it.  Each slice
operation panics when it does not fit in `q_buf`. -/
def buildQuery (buf : List Nat) (received : Nat) (q : Question) : Outcome (List Nat) :=
  let q_buf := buf.take received
  if 12 ≤ q_buf.length then
    let q_buf := writeSlice q_buf 0 (buf.take 12)
    let q_buf := (((q_buf.set 2 1).set 4 0).set 5 1)
    if 12 + q.qname.length ≤ q_buf.length then
      let q_buf := writeSlice q_buf 12 q.qname
      if 12 + q.qname.length + 4 ≤ q_buf.length then
        .ok (writeSlice q_buf (12 + q.qname.length) [0, 1, 0, 1])
      else .panic
    else .panic
  else .panic

/-- The forwarding loop of `handle_request` (lines 72-100), one iteration per
question: build `q_buf`, send it (a send failure returns `SendError`),
receive a reply (a receive failure returns `RecvError`), decode it as a
`Message` (a decode failure returns the deku error), then take
`answer.answer[0].rdata` -- indexing an empty answer section panics -- and
convert it to `[u8; 4]` with `expect`, which panics unless the rdata is
exactly 4 bytes.  Accumulates the sent datagrams and the collected rdata. -/
def forwardLoop (buf : List Nat) (received : Nat) (net : Nat → NetEvent) :
    List Question → Nat → List (List Nat) → List (List Nat) →
    Outcome (List (List Nat) × List (List Nat))
  | [], _, sent, rdata => .ok (sent, rdata)
  | q :: qs, i, sent, rdata =>
    match buildQuery buf received q with
    | .err e => .err e
    | .panic => .panic
    | .ok qb =>
      match net i with
      | .sendFail => .err .SendError
      | .recvFail => .err .RecvError
      | .reply r_buf =>
        match Message.from_bytes r_buf with
        | none => .err .DekuError
        | some (answer, _) =>
          match answer.answer with
          | [] => .panic
          | a :: _ =>
            if a.rdata.length = 4 then
              forwardLoop buf received net qs (i + 1) (sent ++ [qb]) (rdata ++ [a.rdata])
            else .panic

/-- The answer built for one (question, rdata) pair (line 107). -/
def mkAnswerRR (p : Question × List Nat) : ResourceRecord :=
  ResourceRecord.new p.1.qname .A .IN TTL p.2

/-- The receive buffer as `handle_request` sees it: a fixed 512-byte array
whose prefix holds the received datagram and whose tail stays zero. -/
def mkRecvBuf (datagram : List Nat) : List Nat :=
  datagram.take BUFFER_LEN ++ List.replicate (BUFFER_LEN - datagram.length) 0

/-- Everything observable `handle_request` produces on success: the response
message, its serialised bytes, and the upstream datagrams that were sent. -/
structure HandleResult where
  response : Message
  outBytes : List Nat
  sentUpstream : List (List Nat)
deriving DecidableEq

/-- `handle_request` after the receive: parse the header from the full
512-byte buffer, parse the question section, build the response header, then
either forward every question upstream (`resolver` set) or answer each with
the fixed placeholder address, zip questions with rdata into answer records,
and serialise the response into the 512-byte output buffer. -/
def handle_request (resolver : Option Unit) (net : Nat → NetEvent)
    (datagram : List Nat) : Outcome HandleResult :=
  let buf := mkRecvBuf datagram
  let received := min datagram.length BUFFER_LEN
  match Header.from_bytes buf with
  | none => .err .DekuError
  | some (qheader, rest) =>
    match parse_question buf rest qheader with
    | .err e => .err e
    | .panic => .panic
    | .ok questions =>
      let rheader := buildResponseHeader qheader
      match (match resolver with
             | some _ => forwardLoop buf received net questions 0 [] []
             | none => .ok ([], List.replicate questions.length ARBITRARY_IPV4)) with
      | .err e => .err e
      | .panic => .panic
      | .ok pr =>
        let answers := (List.zip questions pr.2).map mkAnswerRR
        let rmsg : Message := { header := rheader, question := questions, answer := answers }
        match rmsg.to_slice with
        | none => .err .DekuError
        | some outBytes => .ok { response := rmsg, outBytes := outBytes, sentUpstream := pr.1 }

/-! ## Well-formedness of in-memory messages -/

/-- A name is self-terminating: it ends with the zero byte of the root label
and contains no earlier zero byte. -/
def selfTerminating (name : List Nat) : Prop :=
  name.getLast? = some 0 ∧ 0 ∉ name.dropLast

instance (name : List Nat) : Decidable (selfTerminating name) := by
  unfold selfTerminating; infer_instance

/-- Well-formed header: every numeric field fits its wire width and the
opcode and rcode are concrete wire variants (the id-less `Reserved` default
variants have no modelled write behaviour). -/
def Header.wf (h : Header) : Prop :=
  h.id < 65536 ∧ h.aa < 2 ∧ h.tc < 2 ∧ h.rd < 2 ∧ h.ra < 2 ∧ h.z < 8 ∧
  h.qdcount < 65536 ∧ h.ancount < 65536 ∧ h.nscount < 65536 ∧ h.arcount < 65536 ∧
  h.opcode ≠ .Reserved ∧ h.rcode ≠ .Reserved

instance (h : Header) : Decidable h.wf := by
  unfold Header.wf; infer_instance

/-- Well-formed question: its name is self-terminating. -/
def Question.wf (q : Question) : Prop := selfTerminating q.qname

instance (q : Question) : Decidable q.wf := by
  unfold Question.wf; infer_instance

/-- Well-formed resource record: self-terminating name, `rdlength` equal to
the rdata length, and `ttl`/`rdlength` within their wire widths. -/
def ResourceRecord.wf (rr : ResourceRecord) : Prop :=
  selfTerminating rr.name ∧ rr.rdlength = rr.rdata.length ∧
  rr.rdata.length < 65536 ∧ rr.ttl < 4294967296

instance (rr : ResourceRecord) : Decidable rr.wf := by
  unfold ResourceRecord.wf; infer_instance

/-- Well-formed message: well-formed header whose counts equal the section
lengths, and well-formed sections. -/
def Message.wf (m : Message) : Prop :=
  m.header.wf ∧ m.header.qdcount = m.question.length ∧
  m.header.ancount = m.answer.length ∧
  (∀ q ∈ m.question, q.wf) ∧ (∀ rr ∈ m.answer, rr.wf)

instance (m : Message) : Decidable m.wf := by
  unfold Message.wf; infer_instance

/-! ## Concrete inputs used by the claims -/

/-- A network oracle for runs that never reach the upstream socket. -/
def netNone : Nat → NetEvent := fun _ => .recvFail

/-- C1 message buffer (512 bytes): question 2 starts with pointer bytes
`[193, 12]`.  RFC 1035 (and the spec) put the target at
`((193 & 0x3f) << 8) | 12 = 268`, where the name `[1, 98, 0]` ("b") lives;
byte offset 12 holds the name `[1, 97, 0]` ("a"). -/
def bufC1 : List Nat :=
  [77, 77, 1, 0, 0, 2, 0, 0, 0, 0, 0, 0] ++ [1, 97, 0, 0, 1, 0, 1] ++
  [193, 12, 0, 1, 0, 1] ++ List.replicate 243 0 ++ [1, 98, 0, 0, 1, 0, 1] ++
  List.replicate 237 0

/-- The header at the front of `bufC1`. -/
def hdrC1 : Header :=
  { id := 19789, qr := .Query, opcode := .Query, aa := 0, tc := 0, rd := 1,
    ra := 0, z := 0, rcode := .NoError, qdcount := 2, ancount := 0,
    nscount := 0, arcount := 0 }

/-- C2 datagram: 512 bytes, header announcing two questions, one valid
question, then 493 bytes that are all 65 -- no zero byte and no pointer byte,
so the fallback scan runs off the end of `rest` and `rest[bi]` indexes out of
bounds. -/
def dgC2 : List Nat :=
  [77, 77, 1, 0, 0, 2, 0, 0, 0, 0, 0, 0] ++ [1, 97, 0, 0, 1, 0, 1] ++
  List.replicate 493 65

/-! ## C1: pointer offset computation in the fallback path -/

/-- C1: the claim states the decoder computes the pointer target as
`((b & 0x3F) << 8) | next_byte`.  The code never assigns the pointer byte to
`offset_hi` (it only applies `offset_hi &= 0x3f` to a variable that is still
0), so the jump target is just `next_byte`.  On `bufC1`, whose second
question starts with pointer bytes `[193, 12]`, the code expands the name at
byte offset 12 (`[1, 97, 0]`), while the offset the claim computes, 268,
holds the different name `[1, 98, 0]`. -/
theorem c1_pointer_offset_low_byte_only :
    Header.from_bytes bufC1 = some (hdrC1, bufC1.drop 12) ∧
    parse_question bufC1 (bufC1.drop 12) hdrC1 =
      .ok [Question.new [1, 97, 0] .A .IN, Question.new [1, 97, 0] .A .IN] ∧
    (Question.from_bytes (bufC1.drop 268)).map (fun p => p.1.qname) =
      some [1, 98, 0] ∧
    ([1, 97, 0] : List Nat) ≠ [1, 98, 0] := by
  refine ⟨by rfl, by rfl, by rfl, by decide⟩

/-! ## C2: a malformed datagram makes the handler panic -/

set_option maxRecDepth 100000 in
/-- C2: the claim states that handling any datagram either produces a
response or returns an error value and never panics.  The 512-byte datagram
`dgC2` (no zero byte and no pointer byte after its first question) drives the
fallback scan past the end of the question section, and the unchecked
`rest[bi]` index panics. -/
theorem c2_malformed_datagram_panics :
    handle_request none netNone dgC2 = .panic := by
  rfl

/-! ## C5: response header construction -/

/-- C5: the response header copies the query's id and RD bit, forces QR to
`Response`, echoes the opcode, zeroes AA/TC/RA/Z, and sets RCODE to
`NotImplemented` exactly when the query opcode is not the standard `Query`
opcode, `NoError` otherwise. -/
theorem c5_response_header_fields (qheader : Header) :
    (buildResponseHeader qheader).id = qheader.id ∧
    (buildResponseHeader qheader).rd = qheader.rd ∧
    (buildResponseHeader qheader).qr = .Response ∧
    (buildResponseHeader qheader).opcode = qheader.opcode ∧
    (buildResponseHeader qheader).aa = 0 ∧
    (buildResponseHeader qheader).tc = 0 ∧
    (buildResponseHeader qheader).ra = 0 ∧
    (buildResponseHeader qheader).z = 0 ∧
    ((buildResponseHeader qheader).rcode = .NotImplemented ↔ qheader.opcode ≠ .Query) ∧
    ((buildResponseHeader qheader).rcode = .NoError ↔ qheader.opcode = .Query) := by
  refine ⟨rfl, rfl, rfl, rfl, rfl, rfl, rfl, rfl, ?_, ?_⟩ <;>
    by_cases h : qheader.opcode = .Query <;>
      simp [buildResponseHeader, h]

/-! ## C10: rdlength at resource-record construction -/

/-- C10 counterexample: `rdlength` is `rdata.len() as u16`, so an rdata of
65536 bytes yields `rdlength = 0`, not the length of the given rdata. -/
theorem c10_counterexample :
    (ResourceRecord.new [0] .A .IN 60 (List.replicate 65536 0)).rdlength = 0 ∧
    (List.replicate 65536 (0 : Nat)).length = 65536 ∧ (0 : Nat) ≠ 65536 := by
  have key : ∀ rdata : List Nat,
      (ResourceRecord.new [0] .A .IN 60 rdata).rdlength = rdata.length % 65536 :=
    fun _ => rfl
  have h1 := key (List.replicate 65536 0)
  rw [List.length_replicate] at h1
  norm_num at h1
  exact ⟨h1, by rw [List.length_replicate], by decide⟩

/-- C10 amended: constructing a resource record sets `rdlength` to the rdata
length truncated to 16 bits, independently of any wire length value; it
equals the rdata length whenever that length fits in a `u16` (as it does for
every rdata the program handles, rdata being bounded by the 512-byte
datagram). -/
theorem c10_rdlength_mod_u16 (name : List Nat) (t : Type_) (c : Class_)
    (ttl : Nat) (rdata : List Nat) :
    (ResourceRecord.new name t c ttl rdata).rdlength = rdata.length % 65536 ∧
    (rdata.length < 65536 →
      (ResourceRecord.new name t c ttl rdata).rdlength = rdata.length) := by
  refine ⟨rfl, fun h => ?_⟩
  simp [ResourceRecord.new, Nat.mod_eq_of_lt h]

/-- C10 witness: a concrete 4-byte rdata gives `rdlength = 4`. -/
theorem c10_witness :
    ([1, 2, 3, 4] : List Nat).length < 65536 ∧
    (ResourceRecord.new [1, 97, 0] .A .IN 60 [1, 2, 3, 4]).rdlength = 4 :=
  ⟨by decide, (c10_rdlength_mod_u16 [1, 97, 0] .A .IN 60 [1, 2, 3, 4]).2 (by decide)⟩

/-! ## C3: count invariant of decoded messages -/

/-- A deku `count = n` read that succeeds returns exactly `n` elements. -/
theorem readCount_length {α : Type} (f : List Nat → Option (α × List Nat)) :
    ∀ (n : Nat) (input : List Nat) (l : List α) (r : List Nat),
      readCount f n input = some (l, r) → l.length = n := by
  intro n
  induction n with
  | zero =>
    intro input l r h
    simp only [readCount, Option.some.injEq, Prod.mk.injEq] at h
    rw [← h.1]
    rfl
  | succ k ih =>
    intro input l r h
    simp only [readCount] at h
    split at h
    · exact Option.noConfusion h
    · rename_i a r0 _
      split at h
      · exact Option.noConfusion h
      · rename_i l2 r2 hc
        simp only [Option.some.injEq, Prod.mk.injEq] at h
        rw [← h.1]
        simp [ih r0 l2 r2 hc]

/-- C3: for every byte buffer from which a `Message` decodes successfully,
the question list length equals the header's `qdcount` and the answer list
length equals the header's `ancount`. -/
theorem c3_count_invariant (bs : List Nat) (m : Message) (rest : List Nat)
    (h : Message.from_bytes bs = some (m, rest)) :
    m.question.length = m.header.qdcount ∧ m.answer.length = m.header.ancount := by
  unfold Message.from_bytes at h
  split at h
  · exact Option.noConfusion h
  · rename_i header r0 _
    split at h
    · exact Option.noConfusion h
    · rename_i qs r1 hq
      split at h
      · exact Option.noConfusion h
      · rename_i ans r2 ha
        simp only [Option.some.injEq, Prod.mk.injEq] at h
        rw [← h.1]
        exact ⟨readCount_length _ _ _ _ _ hq, readCount_length _ _ _ _ _ ha⟩

/-- C3 witness buffer: one question, zero answers. -/
def bsC3 : List Nat := [77, 77, 1, 0, 0, 1, 0, 0, 0, 0, 0, 0, 1, 97, 0, 0, 1, 0, 1]

/-- The message decoded from `bsC3`. -/
def mC3 : Message :=
  { header := { id := 19789, qr := .Query, opcode := .Query, aa := 0, tc := 0,
                rd := 1, ra := 0, z := 0, rcode := .NoError, qdcount := 1,
                ancount := 0, nscount := 0, arcount := 0 },
    question := [Question.new [1, 97, 0] .A .IN],
    answer := [] }

/-- C3 witness: the invariant holds on the concrete buffer `bsC3`. -/
theorem c3_witness :
    Message.from_bytes bsC3 = some (mC3, []) ∧
    (mC3.question.length = mC3.header.qdcount ∧
     mC3.answer.length = mC3.header.ancount) :=
  ⟨by rfl, c3_count_invariant bsC3 mC3 [] (by rfl)⟩

/-! ## C8: a zero byte before the pointer byte -/

/-- The question bytes start with a (possibly empty) run of non-zero bytes
below 192 and then hit a literal zero byte before any pointer byte. -/
def zeroBeforePointer (l : List Nat) : Prop :=
  ∃ i, l.get? i = some 0 ∧
    ∀ j, j < i → ∀ b, l.get? j = some b → b ≠ 0 ∧ b < 192

/-- The fallback scan fails (the `ZeroByte` return) on any input with a zero
byte before the first pointer byte. -/
theorem pointerScan_zeroByte :
    ∀ (l : List Nat) (i : Nat), l.get? i = some 0 →
      (∀ j, j < i → ∀ b, l.get? j = some b → b ≠ 0 ∧ b < 192) →
      ∀ acc bi oh, pointerScan l acc bi oh = none := by
  intro l
  induction l with
  | nil => intro i h; simp at h
  | cons b bs ih =>
    intro i h hj acc bi oh
    cases i with
    | zero =>
      simp only [List.get?, Option.some.injEq] at h
      unfold pointerScan
      rw [if_pos h]
    | succ k =>
      have hb := hj 0 (by omega) b rfl
      unfold pointerScan
      rw [if_neg hb.1, if_pos hb.2]
      exact ih k h (fun j hjk b' hb' => hj (j + 1) (by omega) b' hb') _ _ _

/-- C8: when a later question cannot be read uncompressed (so the fallback
path runs) and its bytes contain a literal zero byte before any pointer
byte, `parse_question` fails with the distinct `ZeroByte` error, producing
no question list. -/
theorem c8_zero_byte_error (buf rest : List Nat) (qh : Header) (q1 : Question)
    (r1 : List Nat) (hqd : 2 ≤ qh.qdcount)
    (h1 : Question.from_bytes rest = some (q1, r1))
    (h2 : Question.from_bytes r1 = none)
    (h3 : zeroBeforePointer r1) :
    parse_question buf rest qh = .err .ZeroByte := by
  obtain ⟨i, hi, hj⟩ := h3
  have hf : parse_fallback buf r1 = .err .ZeroByte := by
    unfold parse_fallback
    rw [pointerScan_zeroByte r1 i hi hj [] 0 0]
  unfold parse_question
  rw [h1]
  obtain ⟨k, hk⟩ : ∃ k, qh.qdcount - 1 = k + 1 := ⟨qh.qdcount - 2, by omega⟩
  rw [hk]
  unfold parseLoop
  rw [h2, hf]

/-- C8 witness question bytes: a valid first question, then a bare zero
byte. -/
def restC8 : List Nat := [1, 97, 0, 0, 1, 0, 1, 0]

/-- C8 witness query header announcing two questions. -/
def qhC8 : Header :=
  { id := 0, qr := .Query, opcode := .Query, aa := 0, tc := 0, rd := 0,
    ra := 0, z := 0, rcode := .NoError, qdcount := 2, ancount := 0,
    nscount := 0, arcount := 0 }

/-- C8 witness: parsing `restC8` under `qhC8` fails with `ZeroByte`. -/
theorem c8_witness : parse_question [] restC8 qhC8 = .err .ZeroByte :=
  c8_zero_byte_error [] restC8 qhC8 (Question.new [1, 97, 0] .A .IN) [0]
    (by decide) (by rfl) (by rfl)
    ⟨0, by rfl, by intro j hjlt b hb; omega⟩

/-! ## C6: response counts versus questions actually parsed -/

/-- A successful run of the question loop appends exactly one question per
remaining iteration. -/
theorem parseLoop_ok_length (buf : List Nat) :
    ∀ (n : Nat) (rest : List Nat) (acc qs : List Question),
      parseLoop buf n rest acc = .ok qs → qs.length = acc.length + n := by
  intro n
  induction n with
  | zero =>
    intro rest acc qs h
    simp only [parseLoop, Outcome.ok.injEq] at h
    rw [← h]
    omega
  | succ k ih =>
    intro rest acc qs h
    simp only [parseLoop] at h
    split at h
    · rename_i q r _
      have hl := ih r (acc ++ [q]) qs h
      simp only [List.length_append, List.length_cons, List.length_nil] at hl
      omega
    · split at h
      · rename_i q r _
        have hl := ih r (acc ++ [q]) qs h
        simp only [List.length_append, List.length_cons, List.length_nil] at hl
        omega
      · exact Outcome.noConfusion h
      · exact Outcome.noConfusion h

/-- A successful `parse_question` returns `max 1 qdcount` questions: the
first question is parsed unconditionally, then `qdcount - 1` more. -/
theorem parse_question_ok_length (buf rest : List Nat) (qh : Header)
    (qs : List Question) (h : parse_question buf rest qh = .ok qs) :
    qs.length = max 1 qh.qdcount := by
  unfold parse_question at h
  split at h
  · exact Outcome.noConfusion h
  · rename_i q r _
    have hl := parseLoop_ok_length buf (qh.qdcount - 1) r [q] qs h
    simp only [List.length_cons, List.length_nil] at hl
    omega

/-- A successful forwarding loop appends one sent datagram and one rdata per
question. -/
theorem forwardLoop_ok_length (buf : List Nat) (received : Nat)
    (net : Nat → NetEvent) :
    ∀ (qs : List Question) (i : Nat) (sent rdata s rd : List (List Nat)),
      forwardLoop buf received net qs i sent rdata = .ok (s, rd) →
      s.length = sent.length + qs.length ∧ rd.length = rdata.length + qs.length := by
  intro qs
  induction qs with
  | nil =>
    intro i sent rdata s rd h
    simp only [forwardLoop, Outcome.ok.injEq, Prod.mk.injEq] at h
    rw [← h.1, ← h.2]
    simp
  | cons q qs ih =>
    intro i sent rdata s rd h
    simp only [forwardLoop] at h
    split at h
    · exact Outcome.noConfusion h
    · exact Outcome.noConfusion h
    · split at h
      · exact Outcome.noConfusion h
      · exact Outcome.noConfusion h
      · split at h
        · exact Outcome.noConfusion h
        · split at h
          · exact Outcome.noConfusion h
          · split at h
            · have hl := ih (i + 1) _ _ s rd h
              simp only [List.length_append, List.length_cons, List.length_nil] at hl
              simp only [List.length_cons]
              omega
            · exact Outcome.noConfusion h

/-- Projection of a handler outcome to the response's count fields and
section lengths. -/
def respCounts (o : Outcome HandleResult) : Option (Nat × Nat × Nat × Nat) :=
  match o with
  | .ok r => some (r.response.header.qdcount, r.response.header.ancount,
                   r.response.question.length, r.response.answer.length)
  | _ => none

/-- C6 counterexample datagram: its header announces zero questions, yet a
parseable question follows the header. -/
def dgC6 : List Nat := [7, 7, 1, 0, 0, 0, 0, 0, 0, 0, 0, 0] ++ [1, 97, 0, 0, 1, 0, 1]

/-- C6 counterexample: the handler succeeds on `dgC6` (qdcount = 0) with a
response whose `qdcount` and `ancount` are 0 although it carries one question
entry and one answer record -- the counts do not equal the number of
questions actually parsed. -/
theorem c6_counterexample :
    respCounts (handle_request none netNone dgC6) = some (0, 0, 1, 1) := by
  rfl

/-- C6 amended: for every successfully handled query, the response's
`qdcount` and `ancount` are copied from the query header's `qdcount`, while
the response carries `max 1 qdcount` question entries and as many answer
records: the counts equal the number of questions actually parsed whenever
the query's `qdcount` is at least 1, and a query with `qdcount = 0` still
gets one parsed question and one answer while both counts stay 0. -/
theorem c6_response_counts (resolver : Option Unit) (net : Nat → NetEvent)
    (datagram : List Nat) (res : HandleResult) (qh : Header) (rest : List Nat)
    (hok : handle_request resolver net datagram = .ok res)
    (hh : Header.from_bytes (mkRecvBuf datagram) = some (qh, rest)) :
    res.response.header.qdcount = qh.qdcount ∧
    res.response.header.ancount = qh.qdcount ∧
    res.response.question.length = max 1 qh.qdcount ∧
    res.response.answer.length = max 1 qh.qdcount := by
  simp only [handle_request] at hok
  split at hok
  · exact Outcome.noConfusion hok
  · rename_i header r0 heq
    rw [hh] at heq
    simp only [Option.some.injEq, Prod.mk.injEq] at heq
    obtain ⟨hqh, hrest⟩ := heq
    subst hqh
    split at hok
    · exact Outcome.noConfusion hok
    · exact Outcome.noConfusion hok
    · rename_i questions hpq
      have hql : questions.length = max 1 qh.qdcount :=
        parse_question_ok_length _ _ _ _ hpq
      split at hok
      · exact Outcome.noConfusion hok
      · exact Outcome.noConfusion hok
      · rename_i pr hfw
        obtain ⟨sent, rdata⟩ := pr
        have hrd : rdata.length = questions.length := by
          cases resolver with
          | none =>
            simp only [Outcome.ok.injEq, Prod.mk.injEq] at hfw
            rw [← hfw.2]
            simp
          | some u =>
            have := forwardLoop_ok_length _ _ net questions 0 [] [] sent rdata hfw
            simp only [List.length_nil] at this
            omega
        split at hok
        · exact Outcome.noConfusion hok
        · rename_i outBytes hts
          simp only [Outcome.ok.injEq] at hok
          rw [← hok]
          refine ⟨rfl, rfl, hql, ?_⟩
          simp only [List.length_map, List.length_zip]
          omega

/-- C6 witness datagram: an ordinary single-question query. -/
def dgC6w : List Nat := [7, 7, 1, 0, 0, 1, 0, 0, 0, 0, 0, 0, 1, 97, 0, 0, 1, 0, 1]

/-- The header at the front of `dgC6w`. -/
def qhC6w : Header :=
  { id := 1799, qr := .Query, opcode := .Query, aa := 0, tc := 0, rd := 1,
    ra := 0, z := 0, rcode := .NoError, qdcount := 1, ancount := 0,
    nscount := 0, arcount := 0 }

/-- The handler result on `dgC6w` in standalone-resolver mode. -/
def resC6w : HandleResult :=
  { response :=
      { header := { id := 1799, qr := .Response, opcode := .Query, aa := 0,
                    tc := 0, rd := 1, ra := 0, z := 0, rcode := .NoError,
                    qdcount := 1, ancount := 1, nscount := 0, arcount := 0 },
        question := [Question.new [1, 97, 0] .A .IN],
        answer := [{ name := [1, 97, 0], type_ := .A, class_ := .IN, ttl := 60,
                     rdlength := 4, rdata := [192, 168, 1, 1] }] },
    outBytes := [7, 7, 129, 0, 0, 1, 0, 1, 0, 0, 0, 0, 1, 97, 0, 0, 1, 0, 1,
                 1, 97, 0, 0, 1, 0, 1, 0, 0, 0, 60, 0, 4, 192, 168, 1, 1],
    sentUpstream := [] }

/-- C6 witness: on the single-question query `dgC6w` the response counts both
equal 1, the number of questions parsed. -/
theorem c6_witness :
    resC6w.response.header.qdcount = qhC6w.qdcount ∧
    resC6w.response.header.ancount = qhC6w.qdcount ∧
    resC6w.response.question.length = max 1 qhC6w.qdcount ∧
    resC6w.response.answer.length = max 1 qhC6w.qdcount :=
  c6_response_counts none netNone dgC6w resC6w qhC6w ((mkRecvBuf dgC6w).drop 12)
    (by rfl) (by rfl)

/-! ## C7: forwarding correlation -/

/-- The answers built from zipping questions with rdata carry, at each index,
the name of the question at that index. -/
theorem zipAnswers_name :
    ∀ (qs : List Question) (rd : List (List Nat)) (j : Nat) (q : Question),
      qs.get? j = some q → j < rd.length →
      ∃ a, ((List.zip qs rd).map mkAnswerRR).get? j = some a ∧ a.name = q.qname := by
  intro qs
  induction qs with
  | nil => intro rd j q h _; simp at h
  | cons x xs ih =>
    intro rd j q h hlt
    cases rd with
    | nil => simp at hlt
    | cons r rs =>
      cases j with
      | zero =>
        have hx : x = q := by simpa using h
        subst hx
        exact ⟨mkAnswerRR (x, r), by simp, rfl⟩
      | succ k =>
        obtain ⟨a, h1, h2⟩ := ih rs k q (by simpa using h) (by simpa using hlt)
        exact ⟨a, by simpa using h1, h2⟩

/-- A successful forwarding loop extends the accumulators with one sent
datagram and one rdata per question, and the datagram sent at position `j` is
exactly the upstream query built from question `j`. -/
theorem forwardLoop_ok_append (buf : List Nat) (received : Nat)
    (net : Nat → NetEvent) :
    ∀ (qs : List Question) (i : Nat) (sent rdata s rd : List (List Nat)),
      forwardLoop buf received net qs i sent rdata = .ok (s, rd) →
      ∃ s2 rd2, s = sent ++ s2 ∧ rd = rdata ++ rd2 ∧
        s2.length = qs.length ∧ rd2.length = qs.length ∧
        ∀ j q, qs.get? j = some q →
          ∃ qb, buildQuery buf received q = .ok qb ∧ s2.get? j = some qb := by
  intro qs
  induction qs with
  | nil =>
    intro i sent rdata s rd h
    simp only [forwardLoop, Outcome.ok.injEq, Prod.mk.injEq] at h
    refine ⟨[], [], by simp [← h.1], by simp [← h.2], rfl, rfl, ?_⟩
    intro j q hq
    simp at hq
  | cons q qs ih =>
    intro i sent rdata s rd h
    simp only [forwardLoop] at h
    split at h
    · exact Outcome.noConfusion h
    · exact Outcome.noConfusion h
    · rename_i qb hbq
      split at h
      · exact Outcome.noConfusion h
      · exact Outcome.noConfusion h
      · split at h
        · exact Outcome.noConfusion h
        · split at h
          · exact Outcome.noConfusion h
          · rename_i answer hrest a tl hans
            split at h
            · obtain ⟨s2, rd2, hs, hrd, hl1, hl2, hidx⟩ := ih (i + 1) _ _ s rd h
              refine ⟨qb :: s2, a.rdata :: rd2, ?_, ?_, ?_, ?_, ?_⟩
              · rw [hs]; simp
              · rw [hrd]; simp
              · simp [hl1]
              · simp [hl2]
              · intro j qq hq
                cases j with
                | zero =>
                  have hxq : q = qq := by simpa using hq
                  subst hxq
                  exact ⟨qb, hbq, rfl⟩
                | succ k =>
                  obtain ⟨qb2, hq1, hq2⟩ := hidx k qq (by simpa using hq)
                  exact ⟨qb2, hq1, by simpa using hq2⟩
            · exact Outcome.noConfusion h

/-- C7: in forwarding mode, a successful run sends exactly one upstream
query per parsed question -- the datagram at position `j` of the sent list is
the single-question query built from question `j` -- and the response carries
exactly one answer per question, in order, the answer at position `j` naming
question `j`. -/
theorem c7_forwarding_correlation (net : Nat → NetEvent) (datagram : List Nat)
    (res : HandleResult)
    (hok : handle_request (some ()) net datagram = .ok res) :
    res.sentUpstream.length = res.response.question.length ∧
    res.response.answer.length = res.response.question.length ∧
    (∀ j q, res.response.question.get? j = some q →
      ∃ qb, buildQuery (mkRecvBuf datagram) (min datagram.length BUFFER_LEN) q = .ok qb ∧
            res.sentUpstream.get? j = some qb) ∧
    (∀ j q, res.response.question.get? j = some q →
      ∃ a, res.response.answer.get? j = some a ∧ a.name = q.qname) := by
  simp only [handle_request] at hok
  split at hok
  · exact Outcome.noConfusion hok
  · rename_i qh r0 hh
    split at hok
    · exact Outcome.noConfusion hok
    · exact Outcome.noConfusion hok
    · rename_i questions hpq
      split at hok
      · exact Outcome.noConfusion hok
      · exact Outcome.noConfusion hok
      · rename_i pr hfw
        obtain ⟨s2, rd2, hs, hrd, hl1, hl2, hidx⟩ :=
          forwardLoop_ok_append _ _ net questions 0 [] [] pr.1 pr.2 hfw
        simp only [List.nil_append] at hs hrd
        split at hok
        · exact Outcome.noConfusion hok
        · rename_i outBytes hts
          simp only [Outcome.ok.injEq] at hok
          rw [← hok]
          refine ⟨?_, ?_, ?_, ?_⟩
          · simp only []
            rw [hs, hl1]
          · simp only [List.length_map, List.length_zip]
            rw [hrd]
            omega
          · intro j q hq
            obtain ⟨qb, h1, h2⟩ := hidx j q (by simpa using hq)
            exact ⟨qb, h1, by rw [hs]; simpa using h2⟩
          · intro j q hq
            have hjlt : j < questions.length := by
              rcases List.get?_eq_some.mp (by simpa using hq) with ⟨hlt, _⟩
              exact hlt
            obtain ⟨a, h1, h2⟩ := zipAnswers_name questions pr.2 j q (by simpa using hq)
              (by rw [hrd]; omega)
            exact ⟨a, by simpa using h1, h2⟩

/-- C7 witness datagram: a single-question query ("a", A, IN). -/
def dgC7 : List Nat := [77, 77, 1, 0, 0, 1, 0, 0, 0, 0, 0, 0, 1, 97, 0, 0, 1, 0, 1]

/-- C7 witness upstream reply (512-byte receive buffer): a response carrying
one answer with a 4-byte rdata. -/
def replyC7 : List Nat :=
  [0, 0, 128, 0, 0, 0, 0, 1, 0, 0, 0, 0] ++
  [1, 97, 0, 0, 1, 0, 1, 0, 0, 0, 60, 0, 4, 1, 2, 3, 4] ++ List.replicate 483 0

/-- C7 witness network oracle: every receive yields `replyC7`. -/
def netC7 : Nat → NetEvent := fun _ => .reply replyC7

/-- The handler result of the C7 witness run. -/
def resC7 : HandleResult :=
  { response :=
      { header := { id := 19789, qr := .Response, opcode := .Query, aa := 0,
                    tc := 0, rd := 1, ra := 0, z := 0, rcode := .NoError,
                    qdcount := 1, ancount := 1, nscount := 0, arcount := 0 },
        question := [Question.new [1, 97, 0] .A .IN],
        answer := [{ name := [1, 97, 0], type_ := .A, class_ := .IN, ttl := 60,
                     rdlength := 4, rdata := [1, 2, 3, 4] }] },
    outBytes := [77, 77, 129, 0, 0, 1, 0, 1, 0, 0, 0, 0, 1, 97, 0, 0, 1, 0, 1,
                 1, 97, 0, 0, 1, 0, 1, 0, 0, 0, 60, 0, 4, 1, 2, 3, 4],
    sentUpstream := [[77, 77, 1, 0, 0, 1, 0, 0, 0, 0, 0, 0, 1, 97, 0, 0, 1, 0, 1]] }

/-- C7 witness: the forwarding run on `dgC7` succeeds and sends exactly as
many upstream queries as it answers questions. -/
theorem c7_witness :
    handle_request (some ()) netC7 dgC7 = .ok resC7 ∧
    resC7.sentUpstream.length = resC7.response.question.length ∧
    resC7.response.answer.length = resC7.response.question.length :=
  ⟨by rfl,
   (c7_forwarding_correlation netC7 dgC7 resC7 (by rfl)).1,
   (c7_forwarding_correlation netC7 dgC7 resC7 (by rfl)).2.1⟩

/-! ## C9: upstream forwarding failures -/

/-- C9 counterexample datagram: a single-question query handled in
forwarding mode. -/
def dgC9 : List Nat := [77, 77, 1, 0, 0, 1, 0, 0, 0, 0, 0, 0, 1, 97, 0, 0, 1, 0, 1]

/-- C9 counterexample reply: it decodes as a `Message` but carries zero
answer records. -/
def replyC9 : List Nat := [0, 0, 128, 0, 0, 0, 0, 0, 0, 0, 0, 0] ++ List.replicate 500 0

/-- C9 counterexample network oracle. -/
def netC9 : Nat → NetEvent := fun _ => .reply replyC9

/-- C9 counterexample: an upstream reply with no answer record does not come
back as an error return -- `answer.answer[0]` indexes an empty vector and the
handler panics. -/
theorem c9_counterexample :
    handle_request (some ()) netC9 dgC9 = .panic := by
  rfl

/-- C9 amended: once the upstream query for the current question has been
built, an upstream send failure, receive failure, or reply that fails to
decode is propagated as an error return from the forwarding loop; but a
reply that decodes with an empty answer section, or whose first answer's
rdata is not exactly 4 bytes, makes the loop panic instead. -/
theorem c9_upstream_failures (buf : List Nat) (received : Nat)
    (net : Nat → NetEvent) (q : Question) (qs : List Question) (i : Nat)
    (sent rdata : List (List Nat)) (qb : List Nat)
    (hb : buildQuery buf received q = .ok qb) :
    (net i = .sendFail →
      forwardLoop buf received net (q :: qs) i sent rdata = .err .SendError) ∧
    (net i = .recvFail →
      forwardLoop buf received net (q :: qs) i sent rdata = .err .RecvError) ∧
    (∀ r_buf, net i = .reply r_buf → Message.from_bytes r_buf = none →
      forwardLoop buf received net (q :: qs) i sent rdata = .err .DekuError) ∧
    (∀ r_buf m rest, net i = .reply r_buf →
      Message.from_bytes r_buf = some (m, rest) → m.answer = [] →
      forwardLoop buf received net (q :: qs) i sent rdata = .panic) ∧
    (∀ r_buf m rest a tl, net i = .reply r_buf →
      Message.from_bytes r_buf = some (m, rest) → m.answer = a :: tl →
      a.rdata.length ≠ 4 →
      forwardLoop buf received net (q :: qs) i sent rdata = .panic) := by
  refine ⟨?_, ?_, ?_, ?_, ?_⟩
  · intro hn
    simp only [forwardLoop]
    rw [hb, hn]
  · intro hn
    simp only [forwardLoop]
    rw [hb, hn]
  · intro r_buf hn hd
    simp only [forwardLoop, hb, hn, hd]
  · intro r_buf m rest hn hd ha
    simp only [forwardLoop, hb, hn, hd, ha]
  · intro r_buf m rest a tl hn hd ha hlen
    simp only [forwardLoop, hb, hn, hd, ha]
    rw [if_neg hlen]

/-- C9 witness network oracle: the first upstream send fails. -/
def netC9w : Nat → NetEvent := fun _ => .sendFail

/-- C9 witness question. -/
def qC9w : Question := Question.new [1, 97, 0] .A .IN

/-- C9 witness: with a failing upstream send, the forwarding loop returns the
`SendError` error value. -/
theorem c9_witness :
    forwardLoop (mkRecvBuf dgC9) 19 netC9w [qC9w] 0 [] [] = .err .SendError :=
  (c9_upstream_failures (mkRecvBuf dgC9) 19 netC9w qC9w [] 0 [] []
    [77, 77, 1, 0, 0, 1, 0, 0, 0, 0, 0, 0, 1, 97, 0, 0, 1, 0, 1] (by rfl)).1 rfl

/-! ## C4: round-trip of well-formed messages -/

/-- A self-terminating name splits as a zero-free run followed by the zero
byte. -/
theorem selfTerminating_split :
    ∀ name : List Nat, selfTerminating name →
      ∃ pre, name = pre ++ [0] ∧ 0 ∉ pre := by
  intro name
  induction name with
  | nil => intro h; simp [selfTerminating] at h
  | cons b bs ih =>
    intro h
    cases bs with
    | nil =>
      obtain ⟨h1, _⟩ := h
      simp only [List.getLast?_singleton, Option.some.injEq] at h1
      subst h1
      exact ⟨[], rfl, by simp⟩
    | cons c cs =>
      obtain ⟨h1, h2⟩ := h
      rw [List.getLast?_cons_cons] at h1
      rw [List.dropLast_cons₂] at h2
      simp only [List.mem_cons, not_or] at h2
      obtain ⟨pre, hp, hnp⟩ := ih ⟨h1, h2.2⟩
      refine ⟨b :: pre, by rw [List.cons_append, ← hp], ?_⟩
      simp only [List.mem_cons, not_or]
      exact ⟨h2.1, hnp⟩

/-- Reading until the zero byte recovers a zero-free run plus its
terminator. -/
theorem readUntilZero_append :
    ∀ pre : List Nat, 0 ∉ pre → ∀ rest : List Nat,
      readUntilZero (pre ++ 0 :: rest) = some (pre ++ [0], rest) := by
  intro pre
  induction pre with
  | nil => intro _ rest; simp [readUntilZero]
  | cons b bs ih =>
    intro h rest
    simp only [List.mem_cons, not_or] at h
    have hb : ¬ b = 0 := fun hc => h.1 hc.symm
    simp only [List.cons_append, readUntilZero, if_neg hb, List.append_eq]
    rw [ih h.2 rest]

/-- Reading a written big-endian `u16` recovers the value. -/
theorem readU16be_write (n : Nat) (rest : List Nat) :
    readU16be (writeU16be n ++ rest) = some (n, rest) := by
  simp only [writeU16be, List.cons_append, List.nil_append, readU16be,
    Option.some.injEq, Prod.mk.injEq]
  exact ⟨by omega, trivial⟩

/-- Reading a written big-endian `u32` recovers any value below `2 ^ 32`. -/
theorem readU32be_write (n : Nat) (hn : n < 4294967296) (rest : List Nat) :
    readU32be (writeU32be n ++ rest) = some (n, rest) := by
  simp only [writeU32be, List.cons_append, List.nil_append, readU32be,
    Option.some.injEq, Prod.mk.injEq]
  exact ⟨by omega, trivial⟩

/-- Reading exactly `l.length` bytes from `l ++ rest` yields `l`. -/
theorem readExact_append :
    ∀ (l rest : List Nat), readExact l.length (l ++ rest) = some (l, rest) := by
  intro l
  induction l with
  | nil => intro rest; simp [readExact]
  | cons b bs ih =>
    intro rest
    simp only [List.length_cons, List.cons_append, readExact, List.append_eq]
    rw [ih rest]

/-- The QR bit reads back and is one bit wide. -/
theorem qr_read_wire : ∀ q : Qr, Qr.read q.wire = q ∧ q.wire < 2 := by
  intro q; cases q <;> exact ⟨by decide, by decide⟩

/-- Every opcode except the id-less default has a 4-bit id that reads back. -/
theorem opcode_wire_read :
    ∀ o : OpCode, o ≠ .Reserved →
      ∃ w, o.wire = some w ∧ OpCode.read w = o ∧ w < 16 := by
  intro o ho
  cases o with
  | Query => exact ⟨0, by decide, by decide, by decide⟩
  | InverseQuery => exact ⟨1, by decide, by decide, by decide⟩
  | Status => exact ⟨2, by decide, by decide, by decide⟩
  | Reserved => exact absurd rfl ho

/-- Every rcode except the id-less default has a 4-bit id that reads back. -/
theorem rcode_wire_read :
    ∀ rc : ResponseCode, rc ≠ .Reserved →
      ∃ w, rc.wire = some w ∧ ResponseCode.read w = rc ∧ w < 16 := by
  intro rc ho
  cases rc with
  | NoError => exact ⟨0, by decide, by decide, by decide⟩
  | FormatError => exact ⟨1, by decide, by decide, by decide⟩
  | ServerFailure => exact ⟨2, by decide, by decide, by decide⟩
  | NameError => exact ⟨3, by decide, by decide, by decide⟩
  | NotImplemented => exact ⟨4, by decide, by decide, by decide⟩
  | Refused => exact ⟨5, by decide, by decide, by decide⟩
  | Reserved => exact absurd rfl ho

/-- QTYPE ids read back. -/
theorem qtype_read_wire : ∀ t : Qtype, Qtype.read t.wire = some t := by
  intro t; cases t <;> decide

/-- QCLASS ids read back. -/
theorem qclass_read_wire : ∀ c : Qclass, Qclass.read c.wire = some c := by
  intro c; cases c <;> decide

/-- TYPE ids read back. -/
theorem type_read_wire : ∀ t : Type_, Type_.read t.wire = some t := by
  intro t; cases t <;> decide

/-- CLASS ids read back. -/
theorem class_read_wire : ∀ c : Class_, Class_.read c.wire = some c := by
  intro c; cases c <;> decide

/-- A well-formed header round-trips through the byte codec with any
trailing bytes. -/
theorem header_roundtrip (h : Header) (hwf : h.wf) (rest : List Nat) :
    ∃ hb, h.to_bytes = some hb ∧ Header.from_bytes (hb ++ rest) = some (h, rest) := by
  obtain ⟨id, qr, opcode, aa, tc, rd, ra, z, rcode, qd, an, ns, ar⟩ := h
  obtain ⟨hid, haa, htc, hrd, hra, hz, hqd, han, hns, har, hop, hrc⟩ := hwf
  dsimp only at hid haa htc hrd hra hz hqd han hns har hop hrc
  obtain ⟨w, how, hor, hwlt⟩ := opcode_wire_read opcode hop
  obtain ⟨v, hrw, hrr, hvlt⟩ := rcode_wire_read rcode hrc
  obtain ⟨hqr, hqlt⟩ := qr_read_wire qr
  refine ⟨writeU16be id ++
          [Qr.wire qr * 128 + w * 8 + aa * 4 + tc * 2 + rd,
           ra * 128 + z * 16 + v] ++
          writeU16be qd ++ writeU16be an ++ writeU16be ns ++ writeU16be ar,
        ?_, ?_⟩
  · simp only [Header.to_bytes, how, hrw]
  · have e_id : 256 * (id / 256) + id % 256 = id := by omega
    have e_qd : 256 * (qd / 256) + qd % 256 = qd := by omega
    have e_an : 256 * (an / 256) + an % 256 = an := by omega
    have e_ns : 256 * (ns / 256) + ns % 256 = ns := by omega
    have e_ar : 256 * (ar / 256) + ar % 256 = ar := by omega
    have e_qr : (Qr.wire qr * 128 + w * 8 + aa * 4 + tc * 2 + rd) / 128 % 2 = Qr.wire qr := by
      omega
    have e_op : (Qr.wire qr * 128 + w * 8 + aa * 4 + tc * 2 + rd) / 8 % 16 = w := by omega
    have e_aa : (Qr.wire qr * 128 + w * 8 + aa * 4 + tc * 2 + rd) / 4 % 2 = aa := by omega
    have e_tc : (Qr.wire qr * 128 + w * 8 + aa * 4 + tc * 2 + rd) / 2 % 2 = tc := by omega
    have e_rd : (Qr.wire qr * 128 + w * 8 + aa * 4 + tc * 2 + rd) % 2 = rd := by omega
    have e_ra : (ra * 128 + z * 16 + v) / 128 % 2 = ra := by omega
    have e_z : (ra * 128 + z * 16 + v) / 16 % 8 = z := by omega
    have e_rc : (ra * 128 + z * 16 + v) % 16 = v := by omega
    simp only [writeU16be, List.cons_append, List.nil_append, List.append_eq,
      Header.from_bytes, readU16be, readU8, e_id, e_qd, e_an, e_ns, e_ar,
      e_qr, e_op, e_aa, e_tc, e_rd, e_ra, e_z, e_rc, hqr, hor, hrr]

/-- A well-formed question round-trips through the byte codec with any
trailing bytes. -/
theorem question_roundtrip (q : Question) (hq : q.wf) (rest : List Nat) :
    Question.from_bytes (Question.to_bytes q ++ rest) = some (q, rest) := by
  obtain ⟨qname, qtype, qclass⟩ := q
  obtain ⟨pre, hp, hnp⟩ := selfTerminating_split qname hq
  subst hp
  have e_t : 256 * (Qtype.wire qtype / 256) + Qtype.wire qtype % 256 = Qtype.wire qtype := by
    omega
  have e_c : 256 * (Qclass.wire qclass / 256) + Qclass.wire qclass % 256 = Qclass.wire qclass := by
    omega
  simp only [Question.to_bytes, writeU16be, List.append_assoc, List.cons_append,
    List.singleton_append, List.nil_append, Question.from_bytes,
    readUntilZero_append pre hnp, readU16be, e_t, e_c,
    qtype_read_wire, qclass_read_wire]

/-- A well-formed resource record round-trips through the byte codec with
any trailing bytes. -/
theorem rr_roundtrip (rr : ResourceRecord) (hr : rr.wf)
    (rest : List Nat) :
    ResourceRecord.from_bytes (ResourceRecord.to_bytes rr ++ rest) = some (rr, rest) := by
  obtain ⟨name, type_, class_, ttl, rdlength, rdata⟩ := rr
  obtain ⟨hst, hlen, hlt, httl⟩ := hr
  dsimp only at hst hlen hlt httl
  obtain ⟨pre, hp, hnp⟩ := selfTerminating_split name hst
  subst hp
  have e_t : 256 * (Type_.wire type_ / 256) + Type_.wire type_ % 256 = Type_.wire type_ := by
    omega
  have e_c : 256 * (Class_.wire class_ / 256) + Class_.wire class_ % 256 = Class_.wire class_ := by
    omega
  have e_ttl : 16777216 * (ttl / 16777216) + 65536 * (ttl / 65536 % 256) +
      256 * (ttl / 256 % 256) + ttl % 256 = ttl := by omega
  have e_rl : 256 * (rdlength / 256) + rdlength % 256 = rdlength := by omega
  have e_exact : readExact rdlength (rdata ++ rest) = some (rdata, rest) := by
    rw [hlen]
    exact readExact_append rdata rest
  simp only [ResourceRecord.to_bytes, writeU16be, writeU32be, List.append_assoc,
    List.cons_append, List.singleton_append, List.nil_append,
    ResourceRecord.from_bytes, readUntilZero_append pre hnp, readU16be,
    readU32be, e_t, e_c, e_ttl, e_rl, e_exact,
    type_read_wire, class_read_wire]

/-- A counted sequence of encoded elements reads back element by element. -/
theorem readCount_append {α : Type} (f : List Nat → Option (α × List Nat))
    (g : α → List Nat) :
    ∀ l : List α, (∀ a ∈ l, ∀ rest, f (g a ++ rest) = some (a, rest)) →
      ∀ rest : List Nat,
        readCount f l.length (concatAll (l.map g) ++ rest) = some (l, rest) := by
  intro l
  induction l with
  | nil => intro _ rest; simp [readCount, concatAll]
  | cons a as ih =>
    intro hf rest
    have hfa := hf a (List.mem_cons_self a as)
    have hrec := ih (fun x hx => hf x (List.mem_cons_of_mem a hx)) rest
    simp only [List.map_cons, concatAll, List.length_cons, readCount,
      List.append_assoc, hfa, hrec]

/-- C4: a well-formed in-memory message (counts equal to section lengths,
self-terminating names, `rdlength` equal to the rdata length, fields within
their wire widths, opcode and rcode concrete) encodes successfully, and
decoding the encoded bytes yields the message back, field by field, with no
bytes left over. -/
theorem c4_roundtrip (m : Message) (hwf : m.wf) :
    ∃ bs, m.to_bytes = some bs ∧ Message.from_bytes bs = some (m, []) := by
  obtain ⟨header, question, answer⟩ := m
  obtain ⟨hh, hqd, han, hq, ha⟩ := hwf
  dsimp only at hh hqd han hq ha
  obtain ⟨hb, htb, hfb⟩ := header_roundtrip header hh
    (concatAll (question.map Question.to_bytes) ++
     concatAll (answer.map ResourceRecord.to_bytes))
  have hQ := readCount_append Question.from_bytes Question.to_bytes question
    (fun x hx rest => question_roundtrip x (hq x hx) rest)
    (concatAll (answer.map ResourceRecord.to_bytes))
  have hA0 := readCount_append ResourceRecord.from_bytes ResourceRecord.to_bytes answer
    (fun x hx rest => rr_roundtrip x (ha x hx) rest) []
  rw [List.append_nil] at hA0
  refine ⟨hb ++ concatAll (question.map Question.to_bytes) ++
          concatAll (answer.map ResourceRecord.to_bytes), ?_, ?_⟩
  · simp only [Message.to_bytes, htb]
  · simp only [Message.from_bytes, List.append_assoc, hfb, hqd, han, hQ, hA0]

/-- C4 witness message: one question and one answer, counts matching. -/
def mC4 : Message :=
  { header := { id := 1, qr := .Response, opcode := .Query, aa := 0, tc := 0,
                rd := 1, ra := 0, z := 0, rcode := .NoError, qdcount := 1,
                ancount := 1, nscount := 0, arcount := 0 },
    question := [Question.new [1, 97, 0] .A .IN],
    answer := [{ name := [1, 97, 0], type_ := .A, class_ := .IN, ttl := 60,
                 rdlength := 4, rdata := [1, 2, 3, 4] }] }

/-- C4 witness: the concrete message `mC4` is well formed and round-trips. -/
theorem c4_witness :
    mC4.wf ∧ ∃ bs, mC4.to_bytes = some bs ∧ Message.from_bytes bs = some (mC4, []) :=
  ⟨by decide, c4_roundtrip mC4 (by decide)⟩

end DnsServer
